import Mathlib

/-!
Shallow embedding of the temporal staff-assignment core of the lp-staffing
repository (FastAPI + PostgreSQL).  Dates are modelled as integers (day
numbers): every SQL DATE comparison in the source is a plain order comparison,
so `Int` with `≤`/`<` is an exact model.  Tables are lists of records; SQL
UPDATE statements become `List.map` with the WHERE clause as the condition;
`engine.begin` transactions that abort via HTTPException roll back, which we
model by returning the original database next to the error value.  Generated
row ids (UUIDs in the source) are modelled by a fresh-id counter on the
database value.
-/

namespace StaffReg

/-- Row of the `role` table. -/
structure Role where
  id : Nat
  code : String
  label : String
deriving DecidableEq

/-- Row of the `location` table. -/
structure Location where
  id : Nat
  code : String
  name : String
deriving DecidableEq

/-- Row of the `staff` table. -/
structure Staff where
  id : Nat
  given_name : String
  family_name : String
  display_name : String
  mobile : String
  email : Option String
  start_date : Int
  end_date : Option Int
  status : String
deriving DecidableEq

/-- Row of the `staff_role_assignment` table. -/
structure Assignment where
  id : Nat
  staff_id : Nat
  role_id : Nat
  location_id : Option Nat
  effective_start : Int
  effective_end : Option Int
  priority : Int
deriving DecidableEq

/-- The relational store: the four tables plus a fresh-id counter standing in
for the UUID generator. -/
structure DB where
  roles : List Role
  locations : List Location
  staff : List Staff
  assignments : List Assignment
  next_id : Nat
deriving DecidableEq

/-- Python truthiness of an `Optional[str]`: `None` and the empty string are
falsy, every other string is truthy. -/
def pyTruthy : Option String → Bool
  | none => false
  | some s => !s.isEmpty

/-- Python's `str.strip()`: drop leading and trailing whitespace.  Implemented
on the character list so that it evaluates inside the kernel. -/
def pyStrip (s : String) : String :=
  ⟨((s.data.dropWhile Char.isWhitespace).reverse.dropWhile Char.isWhitespace).reverse⟩

/-- Python's `str.lower()` (ASCII case folding, which is all the codes and
queries in this system use). -/
def pyLower (s : String) : String :=
  ⟨s.data.map Char.toLower⟩

/-- Lexicographic comparison of character lists by code point, the model of
the database collation used for `ORDER BY` on text columns. -/
def charListLt : List Char → List Char → Bool
  | _, [] => false
  | [], _ :: _ => true
  | a :: as, c :: cs => if a < c then true else if c < a then false else charListLt as cs

/-- Strict text-column comparison for `ORDER BY`. -/
def strLtB (a c : String) : Bool := charListLt a.data c.data

/-- Generic model of `SELECT ... ORDER BY ... LIMIT 1`: pick from a list the
element that sorts first under the strict precedence test `b` (`b x y = true`
means `x` sorts strictly before `y`).  When several elements tie, the later
list element is kept; SQL leaves the choice among ties unspecified. -/
def pickBy (b : α → α → Bool) : List α → Option α
  | [] => none
  | x :: xs =>
    match pickBy b xs with
    | none => some x
    | some y => if b x y then some x else some y

theorem pickBy_eq_none {b : α → α → Bool} {l : List α} :
    pickBy b l = none ↔ l = [] := by
  cases l with
  | nil => simp [pickBy]
  | cons x xs =>
    simp only [pickBy]
    cases h : pickBy b xs with
    | none => simp
    | some y => by_cases hb : b x y = true <;> simp [hb]

theorem pickBy_mem {b : α → α → Bool} {l : List α} :
    ∀ {a : α}, pickBy b l = some a → a ∈ l := by
  induction l with
  | nil => intro a h; simp [pickBy] at h
  | cons x xs ih =>
    intro a h
    simp only [pickBy] at h
    cases hxs : pickBy b xs with
    | none =>
      rw [hxs] at h
      have : x = a := by simpa using h
      simp [← this]
    | some y =>
      rw [hxs] at h
      by_cases hb : b x y = true
      · simp [hb] at h
        simp [← h]
      · simp [hb] at h
        exact List.mem_cons_of_mem x (ih (h ▸ hxs))

theorem pickBy_maximal {b : α → α → Bool}
    (hirr : ∀ x, b x x = false)
    (htrans : ∀ x y z, b x y = true → b y z = true → b x z = true)
    {l : List α} :
    ∀ {a : α}, pickBy b l = some a → ∀ c ∈ l, b c a = false := by
  induction l with
  | nil => intro a h; simp [pickBy] at h
  | cons x xs ih =>
    intro a h c hc
    simp only [pickBy] at h
    cases hxs : pickBy b xs with
    | none =>
      rw [hxs] at h
      have hxa : x = a := by simpa using h
      have hxsnil : xs = [] := pickBy_eq_none.mp hxs
      subst hxsnil
      rcases List.mem_singleton.mp hc with rfl
      rw [← hxa]; exact hirr c
    | some y =>
      rw [hxs] at h
      by_cases hb : b x y = true
      · have hxa : x = a := by simpa [hb] using h
        rcases List.mem_cons.mp hc with rfl | hcxs
        · rw [← hxa]; exact hirr c
        · have hcy : b c y = false := ih hxs c hcxs
          rw [← hxa]
          cases hval : b c x with
          | false => rfl
          | true =>
            have : b c y = true := htrans c x y hval hb
            rw [hcy] at this
            exact absurd this Bool.false_ne_true
      · have hya : y = a := by simpa [hb] using h
        rcases List.mem_cons.mp hc with rfl | hcxs
        · rw [← hya]; simpa using hb
        · rw [← hya]; exact ih hxs c hcxs

theorem pickBy_unique {b : α → α → Bool} {l : List α} {a a' : α}
    (htot : ∀ x ∈ l, ∀ y ∈ l, x ≠ y → b x y = true ∨ b y x = true)
    (hmem : a ∈ l) (hmax : ∀ c ∈ l, b c a = false)
    (hmem' : a' ∈ l) (hmax' : ∀ c ∈ l, b c a' = false) : a = a' := by
  by_contra hne
  rcases htot a hmem a' hmem' hne with hb | hb
  · rw [hmax' a hmem] at hb; exact Bool.false_ne_true hb
  · rw [hmax a' hmem'] at hb; exact Bool.false_ne_true hb

theorem pickBy_perm {b : α → α → Bool}
    (hirr : ∀ x, b x x = false)
    (htrans : ∀ x y z, b x y = true → b y z = true → b x z = true)
    {l l' : List α} (hp : l.Perm l')
    (htot : ∀ x ∈ l, ∀ y ∈ l, x ≠ y → b x y = true ∨ b y x = true) :
    pickBy b l = pickBy b l' := by
  cases h : pickBy b l with
  | none =>
    have : l = [] := pickBy_eq_none.mp h
    subst this
    have : l' = [] := List.perm_nil.mp hp.symm
    subst this
    rfl
  | some a =>
    cases h' : pickBy b l' with
    | none =>
      have : l' = [] := pickBy_eq_none.mp h'
      subst this
      have : l = [] := List.perm_nil.mp hp
      subst this
      simp [pickBy] at h
    | some a' =>
      have hmem : a ∈ l := pickBy_mem h
      have hmem' : a' ∈ l := hp.mem_iff.mpr (pickBy_mem h')
      have hmax : ∀ c ∈ l, b c a = false := pickBy_maximal hirr htrans h
      have hmax' : ∀ c ∈ l, b c a' = false := by
        intro c hc
        exact pickBy_maximal hirr htrans h' c (hp.mem_iff.mp hc)
      exact congrArg some (pickBy_unique htot hmem hmax hmem' hmax')

/-! ## Assignment resolver (read path)

Embedded from the LATERAL subquery of `_fetch_staff_for_list` in
`src/app/main.py` (lines 506-519):

```
WHERE a.staff_id = b.id
  AND a.effective_start <= :D
  AND (a.effective_end IS NULL OR :D <= a.effective_end)
ORDER BY a.priority DESC, a.effective_start DESC, a.id DESC
LIMIT 1
```

The inner `JOIN role` only fetches the display columns and, under the
`role_id NOT NULL REFERENCES role(id)` foreign key, never drops a row, so the
selection happens entirely on assignment rows. -/

/-- Strict precedence for `ORDER BY priority DESC, effective_start DESC, id DESC`:
`resolveBefore a c` holds when row `a` sorts strictly before row `c`. -/
def resolveBefore (a c : Assignment) : Bool :=
  decide (c.priority < a.priority) ||
    (decide (a.priority = c.priority) &&
      (decide (c.effective_start < a.effective_start) ||
        (decide (a.effective_start = c.effective_start) && decide (c.id < a.id))))

theorem resolveBefore_irrefl (x : Assignment) : resolveBefore x x = false := by
  simp [resolveBefore]

theorem resolveBefore_trans (x y z : Assignment) (h1 : resolveBefore x y = true)
    (h2 : resolveBefore y z = true) : resolveBefore x z = true := by
  simp only [resolveBefore, Bool.or_eq_true, Bool.and_eq_true, decide_eq_true_eq] at h1 h2 ⊢
  omega

theorem resolveBefore_total (x y : Assignment) (hne : x.id ≠ y.id) :
    resolveBefore x y = true ∨ resolveBefore y x = true := by
  simp only [resolveBefore, Bool.or_eq_true, Bool.and_eq_true, decide_eq_true_eq]
  omega

/-- The read-path date predicate of the resolver SQL:
`effective_start <= :D AND (effective_end IS NULL OR :D <= effective_end)`
(note the inclusive end, unlike the write path). -/
def matchesOn (d : Int) (a : Assignment) : Bool :=
  decide (a.effective_start ≤ d) &&
    (match a.effective_end with
     | none => true
     | some e => decide (d ≤ e))

theorem matchesOn_iff (d : Int) (a : Assignment) :
    matchesOn d a = true ↔
      a.effective_start ≤ d ∧
        (a.effective_end = none ∨ ∃ e, a.effective_end = some e ∧ d ≤ e) := by
  cases h : a.effective_end <;> simp [matchesOn, h]

/-- The rows the resolver selects among for one staff member and date. -/
def eligibleOn (db : DB) (sid : Nat) (d : Int) : List Assignment :=
  db.assignments.filter (fun a => a.staff_id == sid && matchesOn d a)

theorem mem_eligibleOn (db : DB) (sid : Nat) (d : Int) (a : Assignment) :
    a ∈ eligibleOn db sid d ↔
      a ∈ db.assignments ∧ a.staff_id = sid ∧ matchesOn d a = true := by
  simp [eligibleOn, List.mem_filter, and_assoc]

/-- resolveCurrent: filter by staff and inclusive date window, order by
priority DESC, effective_start DESC, id DESC, take the first row. -/
def resolveCurrent (db : DB) (sid : Nat) (d : Int) : Option Assignment :=
  pickBy resolveBefore (eligibleOn db sid d)

/-- Claim C2: `resolveCurrent` selects among exactly the assignments
satisfying `effective_start <= date AND (effective_end IS NULL OR
date <= effective_end)`, ordered by priority descending, then
effective_start descending, then id descending, and returns the first;
for a fixed set of assignment rows (any reordering of the table, with row
ids unique) it returns the same assignment, even when several assignments
overlap on the date. -/
theorem resolveCurrent_spec (db db2 : DB) (sid : Nat) (d : Int)
    (hids : (db.assignments.map Assignment.id).Nodup)
    (hperm : db.assignments.Perm db2.assignments) :
    (∀ a, resolveCurrent db sid d = some a →
      (a ∈ db.assignments ∧ a.staff_id = sid ∧ a.effective_start ≤ d ∧
        (a.effective_end = none ∨ ∃ e, a.effective_end = some e ∧ d ≤ e)) ∧
      (∀ c ∈ db.assignments, c.staff_id = sid → c.effective_start ≤ d →
        (c.effective_end = none ∨ ∃ e, c.effective_end = some e ∧ d ≤ e) →
        resolveBefore c a = false)) ∧
    (resolveCurrent db sid d = none ↔
      ∀ c ∈ db.assignments, c.staff_id = sid →
        ¬(c.effective_start ≤ d ∧
          (c.effective_end = none ∨ ∃ e, c.effective_end = some e ∧ d ≤ e))) ∧
    resolveCurrent db sid d = resolveCurrent db2 sid d := by
  have hinj := List.inj_on_of_nodup_map hids
  have htot : ∀ x ∈ eligibleOn db sid d, ∀ y ∈ eligibleOn db sid d, x ≠ y →
      resolveBefore x y = true ∨ resolveBefore y x = true := by
    intro x hx y hy hxy
    have hx' := ((mem_eligibleOn db sid d x).mp hx).1
    have hy' := ((mem_eligibleOn db sid d y).mp hy).1
    refine resolveBefore_total x y ?_
    intro hid
    exact hxy (hinj hx' hy' hid)
  refine ⟨?_, ?_, ?_⟩
  · intro a ha
    have hmem := pickBy_mem ha
    have hmem' := (mem_eligibleOn db sid d a).mp hmem
    refine ⟨⟨hmem'.1, hmem'.2.1, ((matchesOn_iff d a).mp hmem'.2.2).1,
      ((matchesOn_iff d a).mp hmem'.2.2).2⟩, ?_⟩
    intro c hc hcs hcd hce
    exact pickBy_maximal resolveBefore_irrefl resolveBefore_trans ha c
      ((mem_eligibleOn db sid d c).mpr ⟨hc, hcs, (matchesOn_iff d c).mpr ⟨hcd, hce⟩⟩)
  · rw [resolveCurrent, pickBy_eq_none, eligibleOn, List.filter_eq_nil_iff]
    constructor
    · intro h c hc hcs hmatch
      exact h c hc (by simp [hcs, (matchesOn_iff d c).mpr hmatch])
    · intro h c hc hfilter
      simp only [Bool.and_eq_true, beq_iff_eq] at hfilter
      exact h c hc hfilter.1 ((matchesOn_iff d c).mp hfilter.2)
  · refine pickBy_perm resolveBefore_irrefl resolveBefore_trans ?_ htot
    exact hperm.filter _

/-! ## Write path: assignment supersession (admin_add_assignment) -/

/-- Guarded close of a prior assignment, from
`UPDATE staff_role_assignment SET effective_end=:en
 WHERE id=:aid AND (effective_end IS NULL OR effective_end > :en)`
(src/app/routers/admin.py, supersession branch of admin_add_assignment). -/
def closeGuarded (l : List Assignment) (aid : Nat) (en : Int) : List Assignment :=
  l.map (fun a =>
    if a.id == aid &&
        (match a.effective_end with | none => true | some e => decide (en < e)) then
      { a with effective_end := some en }
    else a)

/-- Unconditional end update:
`UPDATE staff_role_assignment SET effective_end=:en WHERE id=:aid`. -/
def setEnd (l : List Assignment) (aid : Nat) (en : Int) : List Assignment :=
  l.map (fun a => if a.id == aid then { a with effective_end := some en } else a)

/-- Strict precedence for `ORDER BY effective_start DESC`. -/
def startBefore (a c : Assignment) : Bool :=
  decide (c.effective_start < a.effective_start)

/-- The write-path "current assignment as of :st" query shared by
admin_add_assignment in src/app/routers/admin.py and src/app/main.py:
`effective_start <= :st AND (effective_end IS NULL OR effective_end > :st)
 ORDER BY effective_start DESC LIMIT 1` (note the exclusive end, unlike the
read path). -/
def findCurrent (db : DB) (sid : Nat) (st : Int) : Option Assignment :=
  pickBy startBefore (db.assignments.filter (fun a =>
    a.staff_id == sid && decide (a.effective_start ≤ st) &&
      (match a.effective_end with | none => true | some e => decide (st < e))))

/-- Location id computed by admin_add_assignment (src/app/routers/admin.py):
blank and the placeholder dash mean "no location"; an unknown non-blank code
silently degrades to no location (`loc.id if loc else None`). -/
def adminLocId (db : DB) (location_code : Option String) : Option Nat :=
  let lc := pyStrip (location_code.getD "")
  if lc == "" || lc == "—" then none
  else (db.locations.find? (fun l => l.code == lc)).map Location.id

/-- The freshly inserted assignment row; priority defaults to 0 in the schema. -/
def newAsg (db : DB) (sid rid : Nat) (lid : Option Nat) (st : Int)
    (en : Option Int) : Assignment :=
  { id := db.next_id, staff_id := sid, role_id := rid, location_id := lid,
    effective_start := st, effective_end := en, priority := 0 }

/-- The identity test of admin_add_assignment: same role and same (possibly
null) location as the requested one. -/
def identCond (cur : Assignment) (rid : Nat) (lid : Option Nat) : Bool :=
  cur.role_id == rid &&
    ((decide (cur.location_id = none) && decide (lid = none)) ||
      cur.location_id == lid)

theorem identCond_iff (cur : Assignment) (rid : Nat) (lid : Option Nat) :
    identCond cur rid lid = true ↔ cur.role_id = rid ∧ cur.location_id = lid := by
  simp only [identCond, Bool.and_eq_true, Bool.or_eq_true, beq_iff_eq,
    decide_eq_true_eq]
  constructor
  · rintro ⟨h1, h2 | h2⟩
    · exact ⟨h1, h2.1.trans h2.2.symm⟩
    · exact ⟨h1, h2⟩
  · rintro ⟨h1, h2⟩
    exact ⟨h1, Or.inr h2⟩

/-- admin_add_assignment from src/app/routers/admin.py
(POST /admin/staff/{staff_id}/assign).  An unknown role code leaves the
ledger untouched (the route only re-renders).  Identity case: update only the
end date, and only when an explicit end was supplied that differs from the
current one.  Supersession case: close the current assignment at the new
start (guarded), then insert the new row. -/
def adminAddAssignment (db : DB) (sid : Nat) (role_code : String)
    (location_code : Option String) (st : Int) (en : Option Int) : DB :=
  match db.roles.find? (fun r => r.code == role_code) with
  | none => db
  | some role =>
    let loc_id := adminLocId db location_code
    match findCurrent db sid st with
    | some cur =>
      if identCond cur role.id loc_id then
        match en with
        | some e =>
          if decide (cur.effective_end = none) || !(cur.effective_end == some e) then
            { db with assignments := setEnd db.assignments cur.id e }
          else db
        | none => db
      else
        { db with
          assignments := closeGuarded db.assignments cur.id st ++
            [newAsg db sid role.id loc_id st en],
          next_id := db.next_id + 1 }
    | none =>
      { db with
        assignments := db.assignments ++ [newAsg db sid role.id loc_id st en],
        next_id := db.next_id + 1 }

/-- Claim C1: when the current assignment as of the new effective_start S is
open-ended (null effective_end) and the requested role or location differs,
assign closes the prior assignment at exactly S (the guarded update fires
because the existing end is null; an end date is never moved backward: rows
already ended on or before S are untouched) and inserts the new row with
effective_start = S and the requested end, so the prior assignment ends
exactly when the new one begins. -/
theorem assign_supersession_no_gap (db : DB) (sid : Nat) (role_code : String)
    (location_code : Option String) (st : Int) (en : Option Int)
    (role : Role) (cur : Assignment)
    (hrole : db.roles.find? (fun r => r.code == role_code) = some role)
    (hcur : findCurrent db sid st = some cur)
    (hopen : cur.effective_end = none)
    (hdiff : ¬(cur.role_id = role.id ∧ cur.location_id = adminLocId db location_code)) :
    { cur with effective_end := some st } ∈
      (adminAddAssignment db sid role_code location_code st en).assignments ∧
    newAsg db sid role.id (adminLocId db location_code) st en ∈
      (adminAddAssignment db sid role_code location_code st en).assignments ∧
    (newAsg db sid role.id (adminLocId db location_code) st en).effective_start = st ∧
    (newAsg db sid role.id (adminLocId db location_code) st en).effective_end = en ∧
    (∀ a ∈ db.assignments, a.id ≠ cur.id →
      a ∈ (adminAddAssignment db sid role_code location_code st en).assignments) ∧
    (∀ a ∈ db.assignments, (∃ e, a.effective_end = some e ∧ e ≤ st) →
      a ∈ (adminAddAssignment db sid role_code location_code st en).assignments) ∧
    (adminAddAssignment db sid role_code location_code st en).assignments =
      closeGuarded db.assignments cur.id st ++
        [newAsg db sid role.id (adminLocId db location_code) st en] := by
  have hcondf : identCond cur role.id (adminLocId db location_code) = false := by
    cases h : identCond cur role.id (adminLocId db location_code) with
    | false => rfl
    | true => exact absurd ((identCond_iff cur role.id (adminLocId db location_code)).mp h) hdiff
  have hpost : (adminAddAssignment db sid role_code location_code st en).assignments =
      closeGuarded db.assignments cur.id st ++
        [newAsg db sid role.id (adminLocId db location_code) st en] := by
    simp [adminAddAssignment, hrole, hcur, hcondf]
  have hcurmem : cur ∈ db.assignments := by
    have := pickBy_mem (b := startBefore) (by rw [← findCurrent]; exact hcur)
    exact (List.mem_filter.mp this).1
  refine ⟨?_, ?_, rfl, rfl, ?_, ?_, hpost⟩
  · rw [hpost]
    refine List.mem_append_left _ ?_
    have hmap := List.mem_map_of_mem (fun a =>
      if a.id == cur.id &&
          (match a.effective_end with | none => true | some e => decide (st < e)) then
        { a with effective_end := some st }
      else a) hcurmem
    simpa [closeGuarded, hopen] using hmap
  · rw [hpost]
    exact List.mem_append_right _ (List.mem_singleton.mpr rfl)
  · intro a ha hne
    rw [hpost]
    refine List.mem_append_left _ ?_
    have hmap := List.mem_map_of_mem (fun a =>
      if a.id == cur.id &&
          (match a.effective_end with | none => true | some e => decide (st < e)) then
        { a with effective_end := some st }
      else a) ha
    simpa [closeGuarded, hne] using hmap
  · intro a ha hend
    rcases hend with ⟨e, hae, hle⟩
    rw [hpost]
    refine List.mem_append_left _ ?_
    have hmap := List.mem_map_of_mem (fun a =>
      if a.id == cur.id &&
          (match a.effective_end with | none => true | some e => decide (st < e)) then
        { a with effective_end := some st }
      else a) ha
    have hguard : ¬ st < e := not_lt.mpr hle
    simpa [closeGuarded, hae, hguard] using hmap

/-- Concrete database for exercising the supersession path: one staff member
holding an open-ended RIDER/FARM assignment. -/
def wdb1 : DB :=
  { roles := [⟨1, "RIDER", "Rider"⟩, ⟨2, "STRAPPER", "Strapper"⟩],
    locations := [⟨1, "FARM", "Farm"⟩, ⟨2, "FLEMINGTON", "Flemington"⟩],
    staff := [], assignments := [⟨10, 1, 1, some 1, 0, none, 0⟩], next_id := 11 }

/-- Witness for C1: reassigning to STRAPPER/FLEMINGTON at day 5 closes the
open RIDER/FARM assignment at day 5 and inserts the new row starting day 5. -/
theorem assign_supersession_no_gap_witness :
    wdb1.roles.find? (fun r => r.code == "STRAPPER") = some ⟨2, "STRAPPER", "Strapper"⟩ ∧
    findCurrent wdb1 1 5 = some ⟨10, 1, 1, some 1, 0, none, 0⟩ ∧
    (⟨10, 1, 1, some 1, 0, some 5, 0⟩ : Assignment) ∈
      (adminAddAssignment wdb1 1 "STRAPPER" (some "FLEMINGTON") 5 none).assignments ∧
    (⟨11, 1, 2, some 2, 5, none, 0⟩ : Assignment) ∈
      (adminAddAssignment wdb1 1 "STRAPPER" (some "FLEMINGTON") 5 none).assignments := by
  have h := assign_supersession_no_gap wdb1 1 "STRAPPER" (some "FLEMINGTON") 5 none
    ⟨2, "STRAPPER", "Strapper"⟩ ⟨10, 1, 1, some 1, 0, none, 0⟩
    (by decide) (by decide) (by decide) (by decide)
  exact ⟨by decide, by decide, h.1, by decide⟩

theorem filter_current_nil (db : DB) (sid : Nat) (st : Int)
    (hempty : db.assignments.filter (fun a => a.staff_id == sid) = []) :
    findCurrent db sid st = none := by
  rw [findCurrent, pickBy_eq_none, List.filter_eq_nil_iff]
  intro a ha
  have := (List.filter_eq_nil_iff.mp hempty) a ha
  simp only [Bool.and_eq_true, Bool.not_eq_true] at this ⊢
  intro hcontra
  exact absurd hcontra.1.1 (by simpa using this)

/-- Claim C3 (amended): the identity case of admin_add_assignment changes no
interval unless an explicit effective_end differing from the current one was
supplied, in which case only the end date of the current assignment is
updated; and calling assign twice with identical (role, location,
effective_start) from no prior assignment leaves exactly one assignment row,
provided the supplied effective_end, if any, lies strictly after the
effective_start (so the first inserted row is still "current" at that start
under the write path's exclusive-end query).  With effective_end equal to
effective_start the second call inserts a second row (see the
counterexample). -/
theorem assign_identity_and_idempotence (db : DB) (sid : Nat) (rc : String)
    (lc : Option String) (st : Int) (en : Option Int) :
    (∀ role cur, db.roles.find? (fun r => r.code == rc) = some role →
      findCurrent db sid st = some cur →
      cur.role_id = role.id → cur.location_id = adminLocId db lc →
      (en = none → adminAddAssignment db sid rc lc st en = db) ∧
      (∀ e, en = some e → cur.effective_end = some e →
        adminAddAssignment db sid rc lc st en = db) ∧
      (∀ e, en = some e → cur.effective_end ≠ some e →
        adminAddAssignment db sid rc lc st en =
          { db with assignments := setEnd db.assignments cur.id e })) ∧
    (∀ role, db.roles.find? (fun r => r.code == rc) = some role →
      db.assignments.filter (fun a => a.staff_id == sid) = [] →
      (en = none ∨ ∃ e, en = some e ∧ st < e) →
      ((adminAddAssignment (adminAddAssignment db sid rc lc st en) sid rc lc st en).assignments.filter
          (fun a => a.staff_id == sid)).length = 1) := by
  constructor
  · intro role cur hrole hcur hrid hlid
    have hident : identCond cur role.id (adminLocId db lc) = true :=
      (identCond_iff cur role.id (adminLocId db lc)).mpr ⟨hrid, hlid⟩
    refine ⟨?_, ?_, ?_⟩
    · intro hen
      simp [adminAddAssignment, hrole, hcur, hident, hen]
    · intro e hen hce
      simp [adminAddAssignment, hrole, hcur, hident, hen, hce]
    · intro e hen hne
      cases hce : cur.effective_end with
      | none => simp [adminAddAssignment, hrole, hcur, hident, hen, hce]
      | some e2 =>
        have hne2 : e2 ≠ e := by
          intro h
          exact hne (by rw [hce, h])
        simp [adminAddAssignment, hrole, hcur, hident, hen, hce, hne2]
  · intro role hrole hempty hproviso
    have hfc1 : findCurrent db sid st = none := filter_current_nil db sid st hempty
    have hdb1 : adminAddAssignment db sid rc lc st en =
        { db with
          assignments := db.assignments ++ [newAsg db sid role.id (adminLocId db lc) st en],
          next_id := db.next_id + 1 } := by
      simp [adminAddAssignment, hrole, hfc1]
    set na := newAsg db sid role.id (adminLocId db lc) st en with hna
    set db1 : DB :=
      { db with assignments := db.assignments ++ [na], next_id := db.next_id + 1 } with hdb1def
    have hnapred : (na.staff_id == sid && decide (na.effective_start ≤ st) &&
        (match na.effective_end with | none => true | some e => decide (st < e))) = true := by
      rcases hproviso with hen | ⟨e, hen, hlt⟩
      · simp [hna, newAsg, hen]
      · simp [hna, newAsg, hen, hlt]
    have hfilter1 : db1.assignments.filter (fun a =>
        a.staff_id == sid && decide (a.effective_start ≤ st) &&
          (match a.effective_end with | none => true | some e => decide (st < e))) = [na] := by
      show (db.assignments ++ [na]).filter _ = [na]
      rw [List.filter_append]
      have h1 : db.assignments.filter (fun a =>
          a.staff_id == sid && decide (a.effective_start ≤ st) &&
            (match a.effective_end with | none => true | some e => decide (st < e))) = [] := by
        rw [List.filter_eq_nil_iff]
        intro a ha
        have := (List.filter_eq_nil_iff.mp hempty) a ha
        simp only [Bool.and_eq_true, Bool.not_eq_true] at this ⊢
        intro hcontra
        exact absurd hcontra.1.1 (by simpa using this)
      rw [h1, List.filter_cons, List.filter_nil]
      simp [hnapred]
    have hfc2 : findCurrent db1 sid st = some na := by
      rw [findCurrent, hfilter1]
      rfl
    have hrole1 : db1.roles.find? (fun r => r.code == rc) = some role := hrole
    have hloc1 : adminLocId db1 lc = adminLocId db lc := rfl
    have hident : identCond na role.id (adminLocId db1 lc) = true := by
      rw [hloc1]
      exact (identCond_iff na role.id (adminLocId db lc)).mpr ⟨rfl, rfl⟩
    have hcall2 : adminAddAssignment db1 sid rc lc st en = db1 := by
      rcases hproviso with hen | ⟨e, hen, _⟩
      · simp [adminAddAssignment, hrole1, hfc2, hident, hen]
      · have hnaend : na.effective_end = some e := by
          rw [hna]
          simp [newAsg, hen]
        simp [adminAddAssignment, hrole1, hfc2, hident, hen, hnaend]
    rw [hdb1, hcall2]
    show ((db.assignments ++ [na]).filter (fun a => a.staff_id == sid)).length = 1
    rw [List.filter_append, hempty, List.filter_cons, List.filter_nil]
    simp [hna, newAsg]

/-- Concrete database for the idempotence claims: one staff member, the RIDER
role, and an empty assignment ledger. -/
def c3db : DB :=
  { roles := [⟨1, "RIDER", "Rider"⟩], locations := [],
    staff := [⟨1, "Jane", "Doe", "Jane Doe", "0412345678", none, 0, none, "ACTIVE"⟩],
    assignments := [], next_id := 10 }

/-- Counterexample for C3 as stated: calling assign twice with identical
(role, location, effective_start) — here with effective_end equal to
effective_start, day 5 — starting from no prior assignment leaves TWO
assignment rows, because the write-path current query (effective_end > :st)
does not see the first inserted row on its own start date. -/
theorem assign_twice_two_rows_counterexample :
    ((adminAddAssignment (adminAddAssignment c3db 1 "RIDER" none 5 (some 5))
        1 "RIDER" none 5 (some 5)).assignments.filter
      (fun a => a.staff_id == 1)).length = 2 := by decide

/-- Witness for the amended C3: with no explicit end date, the twice-identical
call leaves exactly one row. -/
theorem assign_identity_and_idempotence_witness :
    c3db.assignments.filter (fun a => a.staff_id == 1) = [] ∧
    ((adminAddAssignment (adminAddAssignment c3db 1 "RIDER" none 5 none)
        1 "RIDER" none 5 none).assignments.filter
      (fun a => a.staff_id == 1)).length = 1 :=
  ⟨by decide,
    (assign_identity_and_idempotence c3db 1 "RIDER" none 5 none).2
      ⟨1, "RIDER", "Rider"⟩ (by decide) (by decide) (Or.inl rfl)⟩

/-! ## JSON assignment endpoint (add_role_assignment, src/app/main.py) -/

/-- Error outcomes of the JSON assignment endpoint. -/
inductive AssignErr where
  | staffNotFound
  | unknownRole
  | unknownLocation
  | overlap (aid : Nat)
deriving DecidableEq

/-- Request body of POST /staff/{staff_id}/roles (pydantic RoleAssignCreate);
the field validator strips role and location codes. -/
structure RoleAssignPayload where
  role_code : String
  location_code : Option String
  effective_start : Int
  effective_end : Option Int
  priority : Int
deriving DecidableEq

/-- The DATE '9999-12-31' sentinel used by the overlap query's COALESCE; in
this embedding any date value of interest lies below it. -/
def sqlMaxDate : Int := 2932896

/-- The overlap check and insert shared by both location branches of
add_role_assignment (src/app/main.py lines 368-388). -/
def roleAssignInsert (db : DB) (sid : Nat) (role : Role) (p : RoleAssignPayload)
    (loc_id : Option Nat) : Except AssignErr Assignment × DB :=
  match db.assignments.find? (fun a =>
      a.staff_id == sid && a.role_id == role.id && a.location_id == loc_id &&
      decide (a.effective_start ≤ p.effective_end.getD sqlMaxDate) &&
      decide (p.effective_start ≤ a.effective_end.getD sqlMaxDate)) with
  | some ov => (.error (.overlap ov.id), db)
  | none =>
    let na : Assignment :=
      { id := db.next_id, staff_id := sid, role_id := role.id, location_id := loc_id,
        effective_start := p.effective_start, effective_end := p.effective_end,
        priority := p.priority }
    (.ok na, { db with assignments := db.assignments ++ [na], next_id := db.next_id + 1 })

/-- add_role_assignment from src/app/main.py (POST /staff/{staff_id}/roles).
A blank location code (Python-falsy after stripping) means no location; a
non-blank code that fails to resolve raises "Unknown location code."
(UnknownReference).  Errors abort the transaction, leaving the store as it
was. -/
def addRoleAssignment (db : DB) (sid : Nat) (p : RoleAssignPayload) :
    Except AssignErr Assignment × DB :=
  let rc := pyStrip p.role_code
  let lcT := p.location_code.map pyStrip
  if !(db.staff.any (fun s => s.id == sid)) then (.error .staffNotFound, db)
  else
    match db.roles.find? (fun r => r.code == rc) with
    | none => (.error .unknownRole, db)
    | some role =>
      if pyTruthy lcT then
        match db.locations.find? (fun l => l.code == lcT.getD "") with
        | none => (.error .unknownLocation, db)
        | some loc => roleAssignInsert db sid role p (some loc.id)
      else roleAssignInsert db sid role p none

/-- Claim C6 (amended): blank (and, on the admin form path, the placeholder
dash) location codes are treated as "no location", a valid state.  In the
JSON add_role_assignment path a non-blank location code that does not resolve
fails with UnknownReference and leaves the store unchanged.  The admin form
path (admin_add_assignment) instead silently degrades an unresolvable
non-blank code to no location and stores the assignment with a null
location (see the counterexample). -/
theorem location_code_resolution (db : DB) (sid : Nat) (p : RoleAssignPayload)
    (rc : String) (lcOpt : Option String) (st : Int) (en : Option Int) :
    (pyTruthy (p.location_code.map pyStrip) = false →
      (addRoleAssignment db sid p).1 ≠ .error .unknownLocation ∧
      (∀ a db2, addRoleAssignment db sid p = (.ok a, db2) → a.location_id = none)) ∧
    (∀ role, db.staff.any (fun s => s.id == sid) = true →
      db.roles.find? (fun r => r.code == pyStrip p.role_code) = some role →
      pyTruthy (p.location_code.map pyStrip) = true →
      db.locations.find? (fun l => l.code == (p.location_code.map pyStrip).getD "") = none →
      addRoleAssignment db sid p = (.error .unknownLocation, db)) ∧
    (pyStrip (lcOpt.getD "") ≠ "" → pyStrip (lcOpt.getD "") ≠ "—" →
      db.locations.find? (fun l => l.code == pyStrip (lcOpt.getD "")) = none →
      adminLocId db lcOpt = none ∧
      (∀ role2, db.roles.find? (fun r => r.code == rc) = some role2 →
        findCurrent db sid st = none →
        (adminAddAssignment db sid rc lcOpt st en).assignments =
          db.assignments ++ [newAsg db sid role2.id none st en])) := by
  refine ⟨?_, ?_, ?_⟩
  · intro hblank
    have hsplit : ∀ role,
        (roleAssignInsert db sid role p none).1 ≠ .error .unknownLocation ∧
        (∀ a db2, roleAssignInsert db sid role p none = (.ok a, db2) →
          a.location_id = none) := by
      intro role
      rw [roleAssignInsert]
      cases hov : db.assignments.find? (fun a =>
          a.staff_id == sid && a.role_id == role.id && a.location_id == none &&
          decide (a.effective_start ≤ p.effective_end.getD sqlMaxDate) &&
          decide (p.effective_start ≤ a.effective_end.getD sqlMaxDate)) with
      | some ov => exact ⟨by simp, by simp⟩
      | none =>
        refine ⟨by simp, ?_⟩
        intro a db2 h
        simp only [Prod.mk.injEq, Except.ok.injEq] at h
        rw [← h.1]
    rw [addRoleAssignment]
    simp only [hblank, Bool.false_eq_true, if_false]
    cases hstaff : (!db.staff.any (fun s => s.id == sid)) with
    | true => exact ⟨by simp, by simp⟩
    | false =>
      simp only [Bool.false_eq_true, if_false]
      cases hrole : db.roles.find? (fun r => r.code == pyStrip p.role_code) with
      | none => exact ⟨by simp, by simp⟩
      | some role => exact hsplit role
  · intro role hstaff hrole htruthy hmiss
    rw [addRoleAssignment]
    simp [hstaff, hrole, htruthy, hmiss]
  · intro hne1 hne2 hmiss
    have hloc : adminLocId db lcOpt = none := by
      rw [adminLocId]
      have hb1 : (pyStrip (lcOpt.getD "") == "") = false := by
        simpa using hne1
      have hb2 : (pyStrip (lcOpt.getD "") == "—") = false := by
        simpa using hne2
      simp [hb1, hb2, hmiss]
    refine ⟨hloc, ?_⟩
    intro role2 hrole2 hfc
    simp [adminAddAssignment, hrole2, hfc, hloc]

/-- Concrete database for the location-resolution claims. -/
def c6db : DB :=
  { roles := [⟨1, "RIDER", "Rider"⟩], locations := [⟨1, "FARM", "Farm"⟩],
    staff := [⟨1, "Jane", "Doe", "Jane Doe", "0412345678", none, 0, none, "ACTIVE"⟩],
    assignments := [], next_id := 20 }

/-- Counterexample for C6 as stated: on the admin form path, assigning with
the non-blank location code "NOWHERE" (absent from the location table) does
NOT fail — it stores the new assignment with a null location. -/
theorem silent_location_drop_counterexample :
    c6db.locations.find? (fun l => l.code == "NOWHERE") = none ∧
    (adminAddAssignment c6db 1 "RIDER" (some "NOWHERE") 5 none).assignments.map
        (fun a => a.location_id) = [none] ∧
    (adminAddAssignment c6db 1 "RIDER" (some "NOWHERE") 5 none).assignments.length = 1 := by
  decide

/-- Witness for the amended C6: the JSON path rejects the same unknown code
with UnknownReference and leaves the store unchanged. -/
theorem location_code_resolution_witness :
    c6db.staff.any (fun s => s.id == 1) = true ∧
    c6db.locations.find? (fun l => l.code == "NOWHERE") = none ∧
    addRoleAssignment c6db 1 ⟨"RIDER", some "NOWHERE", 5, none, 0⟩ =
      (.error .unknownLocation, c6db) :=
  ⟨by decide, by decide,
    (location_code_resolution c6db 1 ⟨"RIDER", some "NOWHERE", 5, none, 0⟩
        "RIDER" (some "NOWHERE") 5 none).2.1 ⟨1, "RIDER", "Rider"⟩
      (by decide) (by decide) (by decide) (by decide)⟩

/-! ## Ending a single assignment (end_role_assignment, src/app/main.py) -/

/-- Error outcomes of POST /staff/{staff_id}/roles/{assignment_id}/end. -/
inductive EndErr where
  | notFound
  | invalidRange
deriving DecidableEq

/-- end_role_assignment from src/app/main.py (lines 400-421): 404 when the
assignment id does not belong to the staff member, 400 ("End date cannot be
before start date", InvalidRange) when end_date < effective_start, otherwise
set effective_end.  Errors abort the transaction: the store is returned
unchanged. -/
def endRoleAssignment (db : DB) (sid aid : Nat) (end_date : Int) :
    Except EndErr Unit × DB :=
  match db.assignments.find? (fun a => a.id == aid && a.staff_id == sid) with
  | none => (.error .notFound, db)
  | some row =>
    if decide (end_date < row.effective_start) then (.error .invalidRange, db)
    else (.ok (), { db with assignments := setEnd db.assignments aid end_date })

/-- Claim C4: endAssignment fails NotFound when the assignment does not
belong to the staff member; when it does, it sets effective_end = end_date
exactly when end_date >= effective_start, and otherwise fails InvalidRange
leaving every assignment row unchanged. -/
theorem end_assignment_spec (db : DB) (sid aid : Nat) (e : Int) :
    ((∀ a ∈ db.assignments, ¬(a.id = aid ∧ a.staff_id = sid)) →
      endRoleAssignment db sid aid e = (.error .notFound, db)) ∧
    (∀ row, db.assignments.find? (fun a => a.id == aid && a.staff_id == sid) = some row →
      row ∈ db.assignments ∧ row.id = aid ∧ row.staff_id = sid ∧
      (e < row.effective_start →
        endRoleAssignment db sid aid e = (.error .invalidRange, db)) ∧
      (row.effective_start ≤ e →
        (endRoleAssignment db sid aid e).1 = .ok () ∧
        { row with effective_end := some e } ∈ (endRoleAssignment db sid aid e).2.assignments ∧
        (∀ a ∈ db.assignments, a.id ≠ aid →
          a ∈ (endRoleAssignment db sid aid e).2.assignments))) := by
  constructor
  · intro hnone
    have hfind : db.assignments.find? (fun a => a.id == aid && a.staff_id == sid) = none := by
      rw [List.find?_eq_none]
      intro a ha
      have := hnone a ha
      simp only [Bool.and_eq_true, beq_iff_eq, not_and] at this ⊢
      intro h1 h2
      exact this h1 h2
    rw [endRoleAssignment, hfind]
  · intro row hfind
    have hmem : row ∈ db.assignments := List.mem_of_find?_eq_some hfind
    have hpred := List.find?_some hfind
    simp only [Bool.and_eq_true, beq_iff_eq] at hpred
    refine ⟨hmem, hpred.1, hpred.2, ?_, ?_⟩
    · intro hlt
      rw [endRoleAssignment, hfind]
      simp [hlt]
    · intro hge
      have hnlt : ¬ e < row.effective_start := not_lt.mpr hge
      rw [endRoleAssignment, hfind]
      refine ⟨by simp [hnlt], ?_, ?_⟩
      · simp only [hnlt, decide_eq_true_eq, if_neg, not_false_iff]
        have hmap := List.mem_map_of_mem
          (fun a => if a.id == aid then { a with effective_end := some e } else a) hmem
        simpa [setEnd, hpred.1] using hmap
      · intro a ha hne
        simp only [hnlt, decide_eq_true_eq, if_neg, not_false_iff]
        have hmap := List.mem_map_of_mem
          (fun a => if a.id == aid then { a with effective_end := some e } else a) ha
        simpa [setEnd, hne] using hmap

/-- Concrete database for the end-assignment claims: one assignment starting
on day 5. -/
def wdb4 : DB :=
  { roles := [⟨1, "RIDER", "Rider"⟩], locations := [],
    staff := [⟨1, "Jane", "Doe", "Jane Doe", "0412345678", none, 0, none, "ACTIVE"⟩],
    assignments := [⟨10, 1, 1, none, 5, none, 0⟩], next_id := 11 }

/-- Witness for C4: end date 3 (before start 5) is rejected with InvalidRange
and no row changes; end date 7 succeeds. -/
theorem end_assignment_spec_witness :
    wdb4.assignments.find? (fun a => a.id == 10 && a.staff_id == 1) =
      some ⟨10, 1, 1, none, 5, none, 0⟩ ∧
    endRoleAssignment wdb4 1 10 3 = (.error .invalidRange, wdb4) ∧
    (endRoleAssignment wdb4 1 10 7).1 = .ok () :=
  ⟨by decide,
    (((end_assignment_spec wdb4 1 10 3).2 ⟨10, 1, 1, none, 5, none, 0⟩
      (by decide)).2.2.2.1 (by decide)),
    (((end_assignment_spec wdb4 1 10 7).2 ⟨10, 1, 1, none, 5, none, 0⟩
      (by decide)).2.2.2.2 (by decide)).1⟩

/-! ## Staff creation (create_staff, src/app/main.py) -/

/-- Error outcomes of POST /staff. -/
inductive CreateErr where
  | duplicateContact (existing : Staff)
  | unknownRole
  | unknownLocation
deriving DecidableEq

/-- Request body of POST /staff (pydantic StaffCreate; the validator strips
the mobile number). -/
structure StaffCreatePayload where
  given_name : String
  family_name : String
  mobile : String
  start_date : Int
  email : Option String
  primary_role_code : Option String
  location_code : Option String
deriving DecidableEq

/-- Response of POST /staff (the dict returned by create_staff). -/
structure CreateResponse where
  id : Nat
  given_name : String
  family_name : String
  display_name : String
  mobile : String
  email : Option String
  start_date : Int
  role_assigned : Bool
deriving DecidableEq

/-- display_name as computed on create: `f"{given} {family}".strip()`. -/
def displayNameOf (gn fn : String) : String := pyStrip (gn ++ " " ++ fn)

/-- The staff row inserted by create_staff. -/
def createdStaff (db : DB) (p : StaffCreatePayload) : Staff :=
  { id := db.next_id, given_name := p.given_name, family_name := p.family_name,
    display_name := displayNameOf p.given_name p.family_name,
    mobile := pyStrip p.mobile, email := p.email, start_date := p.start_date,
    end_date := none, status := "ACTIVE" }

/-- The response dict of create_staff; role_assigned mirrors
`bool(payload.primary_role_code and payload.location_code)`. -/
def createResp (db : DB) (p : StaffCreatePayload) (ra : Bool) : CreateResponse :=
  { id := db.next_id, given_name := p.given_name, family_name := p.family_name,
    display_name := displayNameOf p.given_name p.family_name,
    mobile := pyStrip p.mobile, email := p.email, start_date := p.start_date,
    role_assigned := ra }

/-- create_staff from src/app/main.py (POST /staff, lines 306-350): reject a
duplicate mobile with 409 (DuplicateContact, returning the existing row);
otherwise insert the staff row, and additionally insert an initial role
assignment only when BOTH a primary role code and a location code are
Python-truthy, resolving each and failing UnknownReference on a miss.
Errors abort the transaction, so the store is returned unchanged. -/
def createStaff (db : DB) (p : StaffCreatePayload) :
    Except CreateErr CreateResponse × DB :=
  match db.staff.find? (fun s => s.mobile == pyStrip p.mobile) with
  | some existing => (.error (.duplicateContact existing), db)
  | none =>
    let ns := createdStaff db p
    let db1 := { db with staff := db.staff ++ [ns], next_id := db.next_id + 1 }
    if pyTruthy p.primary_role_code && pyTruthy p.location_code then
      match db.roles.find? (fun r => r.code == p.primary_role_code.getD "") with
      | none => (.error .unknownRole, db)
      | some role =>
        match db.locations.find? (fun l => l.code == p.location_code.getD "") with
        | none => (.error .unknownLocation, db)
        | some loc =>
          let na : Assignment :=
            { id := db1.next_id, staff_id := ns.id, role_id := role.id,
              location_id := some loc.id, effective_start := p.start_date,
              effective_end := none, priority := 0 }
          (.ok (createResp db p true),
            { db1 with
              assignments := db1.assignments ++ [na],
              next_id := db1.next_id + 1 })
    else (.ok (createResp db p false), db1)

/-- Claim C5: creating a staff record whose mobile already exists on another
record fails with DuplicateContact carrying that conflicting record, inserts
nothing, and leaves the staff table unchanged. -/
theorem create_staff_dedup (db : DB) (p : StaffCreatePayload) (ex : Staff)
    (hdup : db.staff.find? (fun s => s.mobile == pyStrip p.mobile) = some ex) :
    ex ∈ db.staff ∧ ex.mobile = pyStrip p.mobile ∧
    createStaff db p = (.error (.duplicateContact ex), db) ∧
    (createStaff db p).2.staff = db.staff := by
  have hmem : ex ∈ db.staff := List.mem_of_find?_eq_some hdup
  have hpred := List.find?_some hdup
  have heq : createStaff db p = (.error (.duplicateContact ex), db) := by
    rw [createStaff, hdup]
  exact ⟨hmem, by simpa using hpred, heq, by rw [heq]⟩

/-- Witness for C5: re-creating Jane by her existing mobile number fails with
DuplicateContact and the staff table is untouched. -/
theorem create_staff_dedup_witness :
    wdb4.staff.find? (fun s => s.mobile ==
        pyStrip ("0412345678" : String)) = some ⟨1, "Jane", "Doe", "Jane Doe", "0412345678", none, 0, none, "ACTIVE"⟩ ∧
    createStaff wdb4 ⟨"Janet", "Doze", "0412345678", 3, none, none, none⟩ =
      (.error (.duplicateContact ⟨1, "Jane", "Doe", "Jane Doe", "0412345678", none, 0, none, "ACTIVE"⟩), wdb4) :=
  ⟨by decide,
    (create_staff_dedup wdb4 ⟨"Janet", "Doze", "0412345678", 3, none, none, none⟩
      ⟨1, "Jane", "Doe", "Jane Doe", "0412345678", none, 0, none, "ACTIVE"⟩ (by decide)).2.2.1⟩

/-- Claim C10: create_staff inserts an initial role assignment only when both
a primary role code and a location code are supplied (Python-truthy); with
only one of them, the staff row is created, no assignment is inserted, and
no error is reported; the response's role_assigned field is true exactly
when both codes were supplied. -/
theorem create_staff_role_assigned (db : DB) (p : StaffCreatePayload)
    (hnodup : db.staff.find? (fun s => s.mobile == pyStrip p.mobile) = none) :
    ((pyTruthy p.primary_role_code && pyTruthy p.location_code) = false →
      createStaff db p = (.ok (createResp db p false),
        { db with
          staff := db.staff ++ [createdStaff db p],
          next_id := db.next_id + 1 }) ∧
      (createStaff db p).2.assignments = db.assignments ∧
      (createResp db p false).role_assigned = false) ∧
    (∀ resp db2, createStaff db p = (.ok resp, db2) →
      resp.role_assigned = (pyTruthy p.primary_role_code && pyTruthy p.location_code)) ∧
    (∀ role loc, (pyTruthy p.primary_role_code && pyTruthy p.location_code) = true →
      db.roles.find? (fun r => r.code == p.primary_role_code.getD "") = some role →
      db.locations.find? (fun l => l.code == p.location_code.getD "") = some loc →
      createStaff db p = (.ok (createResp db p true),
        { db with
          staff := db.staff ++ [createdStaff db p],
          assignments := db.assignments ++
            [⟨db.next_id + 1, db.next_id, role.id, some loc.id, p.start_date, none, 0⟩],
          next_id := db.next_id + 2 }) ∧
      (createResp db p true).role_assigned = true) := by
  refine ⟨?_, ?_, ?_⟩
  · intro hboth
    have heq : createStaff db p = (.ok (createResp db p false),
        { db with
          staff := db.staff ++ [createdStaff db p],
          next_id := db.next_id + 1 }) := by
      rw [createStaff, hnodup]
      simp [hboth]
    exact ⟨heq, by rw [heq], rfl⟩
  · intro resp db2 hok
    rw [createStaff, hnodup] at hok
    cases hboth : (pyTruthy p.primary_role_code && pyTruthy p.location_code) with
    | false =>
      simp only [hboth, Bool.false_eq_true, if_false, Prod.mk.injEq, Except.ok.injEq] at hok
      rw [← hok.1]
      rfl
    | true =>
      simp only [hboth, if_true] at hok
      cases hrole : db.roles.find? (fun r => r.code == p.primary_role_code.getD "") with
      | none => rw [hrole] at hok; simp at hok
      | some role =>
        rw [hrole] at hok
        cases hloc : db.locations.find? (fun l => l.code == p.location_code.getD "") with
        | none => rw [hloc] at hok; simp at hok
        | some loc =>
          rw [hloc] at hok
          simp only [Prod.mk.injEq, Except.ok.injEq] at hok
          rw [← hok.1]
          rfl
  · intro role loc hboth hrole hloc
    constructor
    · rw [createStaff, hnodup]
      simp only [hboth, if_true, hrole, hloc]
      rfl
    · rfl

/-- Witness for C10: a role code without a location code creates the staff
row, inserts no assignment, reports no error, and returns
role_assigned = false. -/
theorem create_staff_role_assigned_witness :
    c3db.staff.find? (fun s => s.mobile == pyStrip ("0499999999" : String)) = none ∧
    createStaff c3db ⟨"Bob", "Ray", "0499999999", 4, none, some "RIDER", none⟩ =
      (.ok (createResp c3db ⟨"Bob", "Ray", "0499999999", 4, none, some "RIDER", none⟩ false),
        { c3db with
          staff := c3db.staff ++
            [createdStaff c3db ⟨"Bob", "Ray", "0499999999", 4, none, some "RIDER", none⟩],
          next_id := c3db.next_id + 1 }) ∧
    (createStaff c3db ⟨"Bob", "Ray", "0499999999", 4, none, some "RIDER", none⟩).2.assignments =
      c3db.assignments :=
  ⟨by decide,
    ((create_staff_role_assigned c3db ⟨"Bob", "Ray", "0499999999", 4, none, some "RIDER", none⟩
      (by decide)).1 (by decide)).1,
    ((create_staff_role_assigned c3db ⟨"Bob", "Ray", "0499999999", 4, none, some "RIDER", none⟩
      (by decide)).1 (by decide)).2.1⟩

/-! ## Ending a staff member (admin_end_staff, src/app/routers/admin.py) -/

/-- admin_end_staff from src/app/routers/admin.py
(POST /admin/staff/{staff_id}/end): set the staff end_date (and INACTIVE
status), then close every assignment of that staff member satisfying
`effective_start <= :d AND (effective_end IS NULL OR :d < effective_end)`
at :d.  (The src/app/main.py variant is identical except that it does not
touch the status column.) -/
def adminEndStaff (db : DB) (sid : Nat) (d : Int) : DB :=
  { db with
    staff := db.staff.map (fun s =>
      if s.id == sid then { s with end_date := some d, status := "INACTIVE" } else s),
    assignments := db.assignments.map (fun a =>
      if a.staff_id == sid && decide (a.effective_start ≤ d) &&
          (match a.effective_end with | none => true | some e => decide (d < e)) then
        { a with effective_end := some d }
      else a) }

/-- Claim C9 (amended): ending a staff member at d closes every assignment of
that staff member that started on or before d and was open on d (null end or
end after d), setting its effective_end to d; assignments already ended on or
before d, assignments of other staff, and assignments with effective_start
after d are unchanged — so afterwards no assignment that had started by d
remains open-ended or extends past d, but a FUTURE-dated assignment (start
after d) is untouched and may remain open-ended (see the counterexample to
the unrestricted claim). -/
theorem end_staff_closes_open_assignments (db : DB) (sid : Nat) (d : Int) :
    (∀ a ∈ (adminEndStaff db sid d).assignments,
      a.staff_id = sid → a.effective_start ≤ d →
        ∃ e, a.effective_end = some e ∧ e ≤ d) ∧
    (∀ a ∈ db.assignments, a.staff_id = sid → a.effective_start ≤ d →
      (a.effective_end = none ∨ ∃ e, a.effective_end = some e ∧ d < e) →
      { a with effective_end := some d } ∈ (adminEndStaff db sid d).assignments) ∧
    (∀ a ∈ db.assignments, ∀ e, a.effective_end = some e → e ≤ d →
      a ∈ (adminEndStaff db sid d).assignments) ∧
    (∀ a ∈ db.assignments, a.staff_id ≠ sid →
      a ∈ (adminEndStaff db sid d).assignments) ∧
    (∀ a ∈ db.assignments, d < a.effective_start →
      a ∈ (adminEndStaff db sid d).assignments) ∧
    (∀ s ∈ db.staff, s.id = sid →
      { s with end_date := some d, status := "INACTIVE" } ∈
        (adminEndStaff db sid d).staff) := by
  refine ⟨?_, ?_, ?_, ?_, ?_, ?_⟩
  · intro a ha hsid hstart
    simp only [adminEndStaff, List.mem_map] at ha
    rcases ha with ⟨a0, ha0, hfa⟩
    by_cases hcond : (a0.staff_id == sid && decide (a0.effective_start ≤ d) &&
        (match a0.effective_end with | none => true | some e => decide (d < e))) = true
    · rw [if_pos hcond] at hfa
      exact ⟨d, by rw [← hfa], le_refl d⟩
    · rw [if_neg hcond] at hfa
      subst hfa
      simp only [Bool.and_eq_true, beq_iff_eq, decide_eq_true_eq, not_and] at hcond
      have := hcond ⟨hsid, hstart⟩
      cases hae : a0.effective_end with
      | none => rw [hae] at this; simp at this
      | some e =>
        rw [hae] at this
        simp only [decide_eq_true_eq] at this
        exact ⟨e, rfl, by omega⟩
  · intro a ha hsid hstart hopen
    have hcond : (a.staff_id == sid && decide (a.effective_start ≤ d) &&
        (match a.effective_end with | none => true | some e => decide (d < e))) = true := by
      rcases hopen with hend | ⟨e, hend, hlt⟩
      · simp [hsid, hstart, hend]
      · simp [hsid, hstart, hend, hlt]
    have hmap := List.mem_map_of_mem (fun a =>
      if a.staff_id == sid && decide (a.effective_start ≤ d) &&
          (match a.effective_end with | none => true | some e => decide (d < e)) then
        { a with effective_end := some d }
      else a) ha
    simp only [adminEndStaff]
    simpa [hcond] using hmap
  · intro a ha e hae hle
    have hcond : (a.staff_id == sid && decide (a.effective_start ≤ d) &&
        (match a.effective_end with | none => true | some e => decide (d < e))) = false := by
      cases hc : (a.staff_id == sid && decide (a.effective_start ≤ d) &&
          (match a.effective_end with | none => true | some e => decide (d < e))) with
      | false => rfl
      | true =>
        simp only [hae, Bool.and_eq_true, decide_eq_true_eq] at hc
        omega
    have hmap := List.mem_map_of_mem (fun a =>
      if a.staff_id == sid && decide (a.effective_start ≤ d) &&
          (match a.effective_end with | none => true | some e => decide (d < e)) then
        { a with effective_end := some d }
      else a) ha
    simp only [adminEndStaff]
    simpa [hcond] using hmap
  · intro a ha hsid
    have hcond : (a.staff_id == sid && decide (a.effective_start ≤ d) &&
        (match a.effective_end with | none => true | some e => decide (d < e))) = false := by
      simp [hsid]
    have hmap := List.mem_map_of_mem (fun a =>
      if a.staff_id == sid && decide (a.effective_start ≤ d) &&
          (match a.effective_end with | none => true | some e => decide (d < e)) then
        { a with effective_end := some d }
      else a) ha
    simp only [adminEndStaff]
    simpa [hcond] using hmap
  · intro a ha hstart
    have hcond : (a.staff_id == sid && decide (a.effective_start ≤ d) &&
        (match a.effective_end with | none => true | some e => decide (d < e))) = false := by
      cases hc : (a.staff_id == sid && decide (a.effective_start ≤ d) &&
          (match a.effective_end with | none => true | some e => decide (d < e))) with
      | false => rfl
      | true =>
        simp only [Bool.and_eq_true, decide_eq_true_eq] at hc
        omega
    have hmap := List.mem_map_of_mem (fun a =>
      if a.staff_id == sid && decide (a.effective_start ≤ d) &&
          (match a.effective_end with | none => true | some e => decide (d < e)) then
        { a with effective_end := some d }
      else a) ha
    simp only [adminEndStaff]
    simpa [hcond] using hmap
  · intro s hs hsid
    have hmap := List.mem_map_of_mem (fun s =>
      if s.id == sid then { s with end_date := some d, status := "INACTIVE" } else s) hs
    simp only [adminEndStaff]
    simpa [hsid] using hmap

/-- Concrete database for the end-staff claims: Jane holds one open-ended
assignment that only starts on day 20, after the termination date. -/
def c9db : DB :=
  { roles := [⟨1, "RIDER", "Rider"⟩], locations := [],
    staff := [⟨1, "Jane", "Doe", "Jane Doe", "0412345678", none, 0, none, "ACTIVE"⟩],
    assignments := [⟨10, 1, 1, none, 20, none, 0⟩], next_id := 11 }

/-- Counterexample for C9 as stated: ending Jane on day 10 sets her staff
end_date, yet her future-dated assignment (start 20 > 10) keeps a null
effective_end — an open-ended assignment extending past the staff end date
remains. -/
theorem end_staff_open_assignment_remains_counterexample :
    (adminEndStaff c9db 1 10).staff.map (fun s => s.end_date) = [some 10] ∧
    (adminEndStaff c9db 1 10).assignments.map (fun a => a.effective_end) = [none] ∧
    (adminEndStaff c9db 1 10).assignments.map (fun a => a.effective_start) = [20] := by
  decide

/-- Concrete database for the end-staff witness: one open assignment started
on day 2 and one already closed on day 4. -/
def c9db2 : DB :=
  { roles := [⟨1, "RIDER", "Rider"⟩], locations := [],
    staff := [⟨1, "Jane", "Doe", "Jane Doe", "0412345678", none, 0, none, "ACTIVE"⟩],
    assignments := [⟨10, 1, 1, none, 2, none, 0⟩, ⟨11, 1, 1, none, 1, some 4, 0⟩],
    next_id := 12 }

/-- Witness for the amended C9: ending Jane on day 10 closes the open
assignment at 10 and leaves the already-ended one untouched. -/
theorem end_staff_closes_open_assignments_witness :
    (⟨10, 1, 1, none, 2, some 10, 0⟩ : Assignment) ∈ (adminEndStaff c9db2 1 10).assignments ∧
    (⟨11, 1, 1, none, 1, some 4, 0⟩ : Assignment) ∈ (adminEndStaff c9db2 1 10).assignments :=
  ⟨(end_staff_closes_open_assignments c9db2 1 10).2.1 ⟨10, 1, 1, none, 2, none, 0⟩
      (by decide) rfl (by decide) (Or.inl rfl),
    (end_staff_closes_open_assignments c9db2 1 10).2.2.1 ⟨11, 1, 1, none, 1, some 4, 0⟩
      (by decide) 4 rfl (by decide)⟩

/-- Concrete pair of databases for the resolver witness: the same two
overlapping assignment rows in different table order. -/
def rdbA : DB :=
  { roles := [], locations := [], staff := [],
    assignments := [⟨1, 1, 1, none, 0, none, 0⟩, ⟨2, 1, 2, none, 3, some 10, 0⟩],
    next_id := 3 }

/-- The same rows as rdbA, permuted. -/
def rdbB : DB :=
  { roles := [], locations := [], staff := [],
    assignments := [⟨2, 1, 2, none, 3, some 10, 0⟩, ⟨1, 1, 1, none, 0, none, 0⟩],
    next_id := 3 }

/-- Witness for C2: with two assignments overlapping day 5 the resolver picks
the later-started row (equal priority), and the pick is unchanged when the
table rows are permuted. -/
theorem resolveCurrent_spec_witness :
    (rdbA.assignments.map Assignment.id).Nodup ∧
    rdbA.assignments.Perm rdbB.assignments ∧
    resolveCurrent rdbA 1 5 = resolveCurrent rdbB 1 5 ∧
    resolveCurrent rdbA 1 5 = some ⟨2, 1, 2, none, 3, some 10, 0⟩ :=
  ⟨by decide, by decide,
    (resolveCurrent_spec rdbA rdbB 1 5 (by decide) (by decide)).2.2,
    by decide⟩

/-! ## Staff listing (fetch_staff_for_list, src/app/services/staff.py)

This is the variant used by the routers package.  Its CTE computes
`base_active := (s.end_date IS NULL)` and selects `is_active := base_active`;
its LATERAL subquery ranks ALL of the staff member's assignments (it has no
date condition), and the `:D` bind parameter is passed in `params` but never
referenced by the SQL text. -/

/-- Character-list version of "pat is a leading segment of l". -/
def leadMatch : List Char → List Char → Bool
  | [], _ => true
  | _ :: _, [] => false
  | a :: as, c :: cs => a == c && leadMatch as cs

/-- Character-list substring test, for the ILIKE '%q%' match (queries without
SQL wildcard metacharacters, which is what the UI sends). -/
def subMatch (pat : List Char) : List Char → Bool
  | [] => pat.isEmpty
  | c :: rest => leadMatch pat (c :: rest) || subMatch pat rest

/-- Case-insensitive substring match: `field ILIKE '%' || pat || '%'`. -/
def ilike (field pat : String) : Bool :=
  subMatch (pyLower pat).data (pyLower field).data

/-- Normalisation of the status filter: strip, lower, and keep only
"active"/"inactive" (anything else means no restriction). -/
def svcNormStatus (status : Option String) : String :=
  let s0 := pyLower (pyStrip (status.getD ""))
  if s0 == "active" || s0 == "inactive" then s0 else ""

/-- One row of the staff listing (the SELECT list of fetch_staff_for_list). -/
structure ListRow where
  id : Nat
  given_name : String
  family_name : String
  display_name : String
  mobile : String
  email : Option String
  start_date : Int
  end_date : Option Int
  role_code : Option String
  role_label : Option String
  location_code : Option String
  is_active : Bool
deriving DecidableEq

/-- The LATERAL pick of the services variant: among ALL assignments of the
staff member (no date filter), ORDER BY priority DESC, effective_start DESC,
id DESC, LIMIT 1. -/
def svcPick (db : DB) (sid : Nat) : Option Assignment :=
  pickBy resolveBefore (db.assignments.filter (fun a => a.staff_id == sid))

/-- The listing row for one staff record: resolved role/location display
columns from the LATERAL pick (the role join never drops rows under the
foreign key), and `is_active := (end_date IS NULL)`. -/
def listRowFor (db : DB) (s : Staff) : ListRow :=
  let ar := svcPick db s.id
  let role := ar.bind (fun a => db.roles.find? (fun r => r.id == a.role_id))
  let loc := ar.bind (fun a => a.location_id.bind (fun lid =>
    db.locations.find? (fun l => l.id == lid)))
  { id := s.id, given_name := s.given_name, family_name := s.family_name,
    display_name := s.display_name, mobile := s.mobile, email := s.email,
    start_date := s.start_date, end_date := s.end_date,
    role_code := role.map Role.code, role_label := role.map Role.label,
    location_code := loc.map Location.code,
    is_active := s.end_date.isNone }

/-- The WHERE clause of fetch_staff_for_list: status against base_active,
role/location against the resolved codes, text query against mobile and the
name columns. -/
def svcKeep (db : DB) (statusNorm roleS locS qRaw : String) (s : Staff) : Bool :=
  let r := listRowFor db s
  (statusNorm == "" || (statusNorm == "active" && r.is_active) ||
    (statusNorm == "inactive" && !r.is_active)) &&
  (roleS == "" || r.role_code == some roleS) &&
  (locS == "" || r.location_code == some locS) &&
  (qRaw == "" || ilike s.mobile qRaw || ilike s.display_name qRaw ||
    ilike s.given_name qRaw || ilike s.family_name qRaw)

/-- ORDER BY family_name, given_name. -/
def staffLe (a c : Staff) : Bool :=
  strLtB a.family_name c.family_name ||
    (a.family_name == c.family_name && !(strLtB c.given_name a.given_name))

/-- Ordered insertion for the ORDER BY model. -/
def insertLe (le : α → α → Bool) (x : α) : List α → List α
  | [] => [x]
  | y :: ys => if le x y then x :: y :: ys else y :: insertLe le x ys

/-- Insertion sort modelling a SQL ORDER BY. -/
def sortByLe (le : α → α → Bool) : List α → List α
  | [] => []
  | x :: xs => insertLe le x (sortByLe le xs)

theorem mem_insertLe {le : α → α → Bool} {x a : α} :
    ∀ {l : List α}, a ∈ insertLe le x l ↔ a = x ∨ a ∈ l := by
  intro l
  induction l with
  | nil => simp [insertLe]
  | cons y ys ih =>
    simp only [insertLe]
    by_cases hb : le x y = true
    · simp [hb, List.mem_cons]
    · simp only [hb, Bool.false_eq_true, if_false, List.mem_cons, ih]
      tauto

theorem mem_sortByLe {le : α → α → Bool} {a : α} :
    ∀ {l : List α}, a ∈ sortByLe le l ↔ a ∈ l := by
  intro l
  induction l with
  | nil => simp [sortByLe]
  | cons x xs ih => simp [sortByLe, mem_insertLe, ih, List.mem_cons]

/-- fetch_staff_for_list from src/app/services/staff.py: normalise the
filters, evaluate the listing query, sort by family then given name.  The
`day` parameter is accepted (and bound as :D) but the SQL of this variant
never references it. -/
def fetchStaffForList (db : DB) (day : Int)
    (role_code loc_code status q : Option String) : List ListRow :=
  let statusNorm := svcNormStatus status
  let roleS := pyStrip (role_code.getD "")
  let locS := pyStrip (loc_code.getD "")
  let qRaw := pyStrip (q.getD "")
  ((sortByLe staffLe db.staff).filter
    (svcKeep db statusNorm roleS locS qRaw)).map (listRowFor db)

/-- Claim C7 (amended): the is_active flag computed by the listing equals
(end_date IS NULL) — independent of the reference date, of the staff
start_date, and of whether the staff member holds a resolving assignment;
it does NOT equal the claimed start_date <= d <= end_date window (see the
counterexample). -/
theorem list_is_active_formula (db : DB) (day day2 : Int)
    (rc lc st q : Option String) :
    (fetchStaffForList db day rc lc st q).map (fun r => (r.id, r.is_active)) =
      (fetchStaffForList db day2 rc lc st q).map (fun r => (r.id, r.is_active)) ∧
    ∀ r ∈ fetchStaffForList db day rc lc st q,
      r.is_active = r.end_date.isNone ∧
      ∃ s ∈ db.staff, r.id = s.id ∧ r.end_date = s.end_date ∧
        r.is_active = s.end_date.isNone := by
  constructor
  · rfl
  · intro r hr
    simp only [fetchStaffForList, List.mem_map] at hr
    rcases hr with ⟨s, hs, hrs⟩
    have hsmem : s ∈ db.staff := mem_sortByLe.mp (List.mem_filter.mp hs).1
    subst hrs
    exact ⟨rfl, s, hsmem, rfl, rfl, rfl⟩

/-- Concrete database for the is_active claims: Jane's employment only starts
on day 5 and has no end date. -/
def c7db : DB :=
  { roles := [], locations := [],
    staff := [⟨1, "Jane", "Doe", "Jane Doe", "0412345678", none, 5, none, "ACTIVE"⟩],
    assignments := [], next_id := 2 }

/-- Counterexample for C7 as stated: on day 1, before Jane's start_date 5,
the claimed formula start_date <= d AND (end null OR d <= end) is false, yet
the listing computes is_active = true (it tests end_date IS NULL only). -/
theorem is_active_not_window_counterexample :
    (fetchStaffForList c7db 1 none none none none).map (fun r => r.is_active) = [true] ∧
    (fetchStaffForList c7db 1 none none none none).map
      (fun r => decide (r.start_date ≤ 1)) = [false] := by
  decide

/-- Witness for the amended C7: evaluated on Jane's record, the flag equals
end_date IS NULL and ignores the reference date. -/
theorem list_is_active_formula_witness :
    (fetchStaffForList c7db 1 none none none none).map (fun r => (r.id, r.is_active)) =
      (fetchStaffForList c7db 2 none none none none).map (fun r => (r.id, r.is_active)) ∧
    (⟨1, "Jane", "Doe", "Jane Doe", "0412345678", none, 5, none, none, none, none, true⟩ : ListRow)
        ∈ fetchStaffForList c7db 1 none none none none ∧
    ((⟨1, "Jane", "Doe", "Jane Doe", "0412345678", none, 5, none, none, none, none, true⟩ : ListRow)).is_active =
      ((⟨1, "Jane", "Doe", "Jane Doe", "0412345678", none, 5, none, none, none, none, true⟩ : ListRow)).end_date.isNone :=
  ⟨(list_is_active_formula c7db 1 2 none none none none).1,
    by decide,
    ((list_is_active_formula c7db 1 2 none none none none).2
      ⟨1, "Jane", "Doe", "Jane Doe", "0412345678", none, 5, none, none, none, none, true⟩
      (by decide)).1⟩

/-! ## CSV export and JSON listing (src/app/routers/admin.py) -/

/-- The JSON object built by staff_to_api; the row dict carries
given_name/family_name/role_label/location_code/mobile, so the `or` fallback
chains resolve to those columns. -/
structure ApiStaff where
  id : String
  first_name : String
  last_name : String
  role : Option String
  location : Option String
  phone : String
  email : Option String
  is_active : Bool
deriving DecidableEq

/-- staff_to_api from src/app/routers/admin.py. -/
def staffToApi (r : ListRow) : ApiStaff :=
  { id := toString r.id, first_name := r.given_name, last_name := r.family_name,
    role := r.role_label, location := r.location_code, phone := r.mobile,
    email := r.email, is_active := r.is_active }

/-- The JSON branch of admin_staff_list (Accept: application/json): it always
evaluates at today's date and maps the fetched rows through staff_to_api in
order. -/
def adminStaffListJson (db : DB) (today : Int)
    (role lc st q : Option String) : List ApiStaff :=
  (fetchStaffForList db today role lc st q).map staffToApi

/-- The header row written by admin_staff_export_csv. -/
def csvHeader : List String :=
  ["id", "given_name", "family_name", "display_name", "mobile", "email",
   "start_date", "end_date", "is_active", "role_code", "role_label",
   "location_code"]

/-- One CSV data row: csv.writer renders None as the empty string, dates via
str(), and the is_active flag as TRUE/FALSE. -/
def csvRow (r : ListRow) : List String :=
  [toString r.id, r.given_name, r.family_name, r.display_name, r.mobile,
   r.email.getD "", toString r.start_date, (r.end_date.map toString).getD "",
   if r.is_active then "TRUE" else "FALSE",
   r.role_code.getD "", r.role_label.getD "", r.location_code.getD ""]

/-- admin_staff_export_csv from src/app/routers/admin.py: header row followed
by one row per fetched staff record, same query and filters as the listing. -/
def adminStaffExportCsv (db : DB) (day : Int)
    (role lc st q : Option String) : List (List String) :=
  csvHeader :: (fetchStaffForList db day role lc st q).map csvRow

/-- Claim C8: for every date and filter combination, the CSV export emits
exactly the same staff ids, in the same order, as the JSON listing for
identical parameters (the JSON branch always evaluates at today, but the
underlying query of this variant does not reference the date at all, so the
two agree for every requested export date), with the fixed column order id,
given_name, family_name, display_name, mobile, email, start_date, end_date,
is_active, role_code, role_label, location_code. -/
theorem export_matches_json_listing (db : DB) (dayCsv today : Int)
    (role lc st q : Option String) :
    (adminStaffExportCsv db dayCsv role lc st q).head? = some csvHeader ∧
    csvHeader = ["id", "given_name", "family_name", "display_name", "mobile",
      "email", "start_date", "end_date", "is_active", "role_code", "role_label",
      "location_code"] ∧
    (adminStaffExportCsv db dayCsv role lc st q).tail.map (fun row => row.head?) =
      (adminStaffListJson db today role lc st q).map (fun o => some o.id) := by
  refine ⟨rfl, rfl, ?_⟩
  simp only [adminStaffExportCsv, adminStaffListJson, List.tail_cons, List.map_map]
  rfl

end StaffReg
